import Mathlib

/-!
Verification of the link resolution and click-accounting core of a
URL-shortener service: a shallow embedding of the data model
(`src/lib/schema.ts`), the validators (`src/lib/validation.ts`), the code
generator (`src/lib/utils.ts`) and the route handlers
(`src/app/[code]/route.ts`, `src/app/api/links/route.ts`,
`src/app/api/links/[code]/route.ts`), together with theorems about them.

Timestamps are modelled as natural numbers.  The Postgres/Drizzle storage
layer is modelled by explicit state passing over a list of rows: each SQL
statement issued by the handlers (select / insert / update / delete) becomes
a function on the store state, atomic exactly because the database executes
each single statement atomically.
-/

namespace UrlShortener

/-- The `links` table row (`src/lib/schema.ts`): serial `id`, unique `code`
(varchar 8, NOT NULL, UNIQUE), `targetUrl` (NOT NULL), `totalClicks`
(NOT NULL, default 0), nullable `lastClickedAt`, `createdAt`
(NOT NULL, defaultNow). -/
structure Link where
  id : Nat
  code : String
  targetUrl : String
  totalClicks : Nat
  lastClickedAt : Option Nat
  createdAt : Nat
deriving Repr, DecidableEq

/-- The database state: the rows of the `links` table plus the next value of
the `id` serial sequence. -/
structure Store where
  rows : List Link
  nextId : Nat
deriving Repr, DecidableEq

/-- The list of codes of all live rows. -/
def codes (s : Store) : List String :=
  s.rows.map Link.code

/-- Model of `db.select().from(links).where(eq(links.code, code)).limit(1)`:
the first row whose `code` matches, if any. -/
def findByCode (s : Store) (c : String) : Option Link :=
  s.rows.find? (fun l => l.code == c)

/-- Model of `db.insert(links).values({code, targetUrl, totalClicks: 0,
lastClickedAt: null}).returning()` under the UNIQUE constraint on `code`
(`schema.ts`): fails (unique-constraint violation) when a live row already
has this code, otherwise appends the new row with a fresh serial `id` and
`createdAt` set by the database (`defaultNow()`). -/
def insertLink (s : Store) (c targetUrl : String) (now : Nat) :
    Except Unit (Link × Store) :=
  if s.rows.any (fun l => l.code == c) then
    .error ()
  else
    let link : Link :=
      { id := s.nextId, code := c, targetUrl := targetUrl,
        totalClicks := 0, lastClickedAt := none, createdAt := now }
    .ok (link, { rows := s.rows ++ [link], nextId := s.nextId + 1 })

/-- Model of `db.update(links).set({totalClicks: sql totalClicks + 1,
lastClickedAt: new Date()}).where(eq(links.code, code))`: the atomic
server-side update from `src/app/[code]/route.ts`.  Every row matching the
code (at most one, by uniqueness) gets its counter incremented by 1 and its
`lastClickedAt` set; zero matching rows is not an error. -/
def incrementClick (s : Store) (c : String) (now : Nat) : Store :=
  { s with
    rows := s.rows.map (fun l =>
      if l.code == c then
        { l with totalClicks := l.totalClicks + 1, lastClickedAt := some now }
      else l) }

/-- Model of `db.delete(links).where(eq(links.code, code))`: removes every row
matching the code (at most one, by uniqueness). -/
def deleteByCode (s : Store) (c : String) : Store :=
  { s with rows := s.rows.filter (fun l => !(l.code == c)) }

/-! ## Validation (`src/lib/validation.ts`) -/

/-- The result type of the validators: `{valid: boolean, error?: string}`. -/
structure ValidationResult where
  valid : Bool
  error : Option String
deriving Repr, DecidableEq

/-- The whitespace characters removed by JavaScript `String.prototype.trim`
(the ASCII ones plus NBSP and BOM; all that matters below is that none of
them is alphanumeric). -/
def isJsWhitespace (c : Char) : Bool :=
  c == ' ' || c == '\t' || c == '\n' || c == '\r' ||
  c == '\x0b' || c == '\x0c' || c == '\u00A0' || c == '\uFEFF'

/-- Test `!str || str.trim().length === 0`: the string is empty or consists of
whitespace only. -/
def isBlank (str : String) : Bool :=
  str.data.all isJsWhitespace

/-- A character matched by the character class `[A-Za-z0-9]`. -/
def isAlnumChar (c : Char) : Bool :=
  (decide ('A' ≤ c) && decide (c ≤ 'Z')) ||
  (decide ('a' ≤ c) && decide (c ≤ 'z')) ||
  (decide ('0' ≤ c) && decide (c ≤ '9'))

/-- The test `/^[A-Za-z0-9]{6,8}$/.test(code)`: between 6 and 8 characters,
all alphanumeric. -/
def codeRegexTest (code : String) : Bool :=
  decide (6 ≤ code.data.length) && decide (code.data.length ≤ 8) &&
  code.data.all isAlnumChar

/-- Function `validateCode` from `src/lib/validation.ts`: blank codes are rejected
with "Code is required"; otherwise the regex decides, and on failure the
message distinguishes too-short, too-long and bad-characters. -/
def validateCode (code : String) : ValidationResult :=
  if isBlank code then
    { valid := false, error := some "Code is required" }
  else if codeRegexTest code then
    { valid := true, error := none }
  else if code.data.length < 6 then
    { valid := false, error := some "Code must be at least 6 characters long" }
  else if code.data.length > 8 then
    { valid := false, error := some "Code must be at most 8 characters long" }
  else
    { valid := false,
      error := some "Code can only contain letters (A-Z, a-z) and numbers (0-9)" }

/-- Function `validateUrl` from `src/lib/validation.ts`.  The well-formedness test
delegated to the external `validator.isURL` library is passed in as the
predicate `isURL`. -/
def validateUrl (isURL : String → Bool) (url : String) : ValidationResult :=
  if isBlank url then
    { valid := false, error := some "URL is required" }
  else if !(isURL url) then
    { valid := false,
      error := some "Invalid URL format. Must start with http:// or https://" }
  else if url.data.length > 2048 then
    { valid := false, error := some "URL is too long (max 2048 characters)" }
  else
    { valid := true, error := none }

/-- JavaScript truthiness of the optional `customCode` field: `undefined`
and the empty string are falsy. -/
def truthy (o : Option String) : Bool :=
  match o with
  | none => false
  | some s => !(s == "")

/-- Function `validateCreateLinkRequest` from `src/lib/validation.ts`: the URL is
validated unconditionally; the code only when supplied and truthy. -/
def validateCreateLinkRequest (isURL : String → Bool) (targetUrl : String)
    (customCode : Option String) : ValidationResult :=
  let u := validateUrl isURL targetUrl
  if !u.valid then u
  else if truthy customCode then
    let cv := validateCode (customCode.getD "")
    if !cv.valid then cv
    else { valid := true, error := none }
  else { valid := true, error := none }

/-! ## Code generation (`src/lib/utils.ts`) -/

/-- The custom alphabet of `generateShortCode`: `[A-Za-z0-9]`, 62 characters. -/
def alphabet : String :=
  "ABCDEFGHIJKLMNOPQRSTUVWXYZabcdefghijklmnopqrstuvwxyz0123456789"

/-- Function `generateShortCode` from `src/lib/utils.ts`: `customAlphabet(alphabet, 6)`
from the external `nanoid` library draws 6 characters from the alphabet.  The
randomness source is modelled as a function `rand` giving the raw random
number for each of the 6 positions; `nanoid` reduces each to an index into
the 62-character alphabet. -/
def generateShortCode (rand : Nat → Nat) : String :=
  String.mk ((List.range 6).map (fun i => alphabet.data.getD (rand i % 62) 'A'))

/-- The retry loop body of `generateUniqueShortCode`: `attempt` counts the
iterations already performed (the candidate of iteration `i` is `gen i`) and
`fuel` the iterations remaining. -/
def genAttempts (gen : Nat → String) (checkExists : String → Bool) :
    Nat → Nat → Option String
  | _, 0 => none
  | attempt, fuel + 1 =>
    let code := gen attempt
    if checkExists code then genAttempts gen checkExists (attempt + 1) fuel
    else some code

/-- Function `generateUniqueShortCode` from `src/lib/utils.ts`: up to `maxAttempts`
(default 3) candidates are generated and tested against the caller-supplied
existence predicate; the first free candidate is returned, `none` (null)
when all attempts collide.  The candidate of attempt `i` is `gen i`,
abstracting the fresh `generateShortCode()` call of each iteration. -/
def generateUniqueShortCode (gen : Nat → String) (checkExists : String → Bool)
    (maxAttempts : Nat := 3) : Option String :=
  genAttempts gen checkExists 0 maxAttempts

/-! ## Route handlers -/

/-- Outcome of `GET /:code` (`src/app/[code]/route.ts`): a 302 redirect to
the target URL, or a 404. -/
inductive RedirectOutcome where
  | redirect (target : String)
  | notFound
deriving Repr, DecidableEq

/-- The redirect handler `GET /:code` with its two store round-trips made
explicit: the select (steps 2-3 of the source) reads state `sLookup`; the
atomic update (step 4) executes against state `sUpdate`, which may differ
when another request commits between the two statements.  The handler
redirects to the `targetUrl` of the row read at lookup time and never
inspects how many rows the update matched. -/
def redirectGETRaced (sLookup sUpdate : Store) (c : String) (now : Nat) :
    RedirectOutcome × Store :=
  match findByCode sLookup c with
  | none => (.notFound, sUpdate)
  | some l => (.redirect l.targetUrl, incrementClick sUpdate c now)

/-- The redirect handler when no other request interleaves: both statements
see the same store. -/
def redirectGET (s : Store) (c : String) (now : Nat) :
    RedirectOutcome × Store :=
  redirectGETRaced s s c now

/-- Outcome of `POST /api/links` (`src/app/api/links/route.ts`):
201 created, 400 invalid, 409 conflict, or 500 generation failure. -/
inductive CreateOutcome where
  | created (link : Link)
  | invalid (msg : Option String)
  | conflict
  | genFailed
deriving Repr, DecidableEq

/-- Whether a create outcome is a successful creation (201). -/
def isCreated : CreateOutcome → Bool
  | .created _ => true
  | _ => false

/-- The `POST /api/links` handler.  `isURL` abstracts the external
`validator.isURL` library and `rand i` the randomness consumed by the
`generateShortCode()` call of generation attempt `i`.  Steps follow the
source: validate; with a truthy custom code, duplicate pre-check then
insert (a unique-violation at insert is caught and mapped to 409);
otherwise generate a unique code (null maps to 500) then insert. -/
def POST (isURL : String → Bool) (rand : Nat → Nat → Nat) (s : Store)
    (targetUrl : String) (customCode : Option String) (now : Nat) :
    CreateOutcome × Store :=
  if !(validateCreateLinkRequest isURL targetUrl customCode).valid then
    (.invalid (validateCreateLinkRequest isURL targetUrl customCode).error, s)
  else if truthy customCode then
    match findByCode s (customCode.getD "") with
    | some _ => (.conflict, s)
    | none =>
      match insertLink s (customCode.getD "") targetUrl now with
      | .ok (l, s₁) => (.created l, s₁)
      | .error _ => (.conflict, s)
  else
    match generateUniqueShortCode (fun i => generateShortCode (rand i))
        (fun cd => (findByCode s cd).isSome) 3 with
    | none => (.genFailed, s)
    | some c =>
      match insertLink s c targetUrl now with
      | .ok (l, s₁) => (.created l, s₁)
      | .error _ => (.conflict, s)

/-- The custom-code branch of `POST /api/links` with its two store
round-trips made explicit: the duplicate pre-check (step 3) reads state
`sCheck`, while the insert (step 4) executes against state `sInsert` under
the storage-level unique constraint, which may differ when a concurrent
create commits between the two statements.  A unique-violation raised by
the insert is caught and mapped to the conflict outcome. -/
def POSTCustomRaced (isURL : String → Bool) (sCheck sInsert : Store)
    (targetUrl c : String) (now : Nat) : CreateOutcome × Store :=
  if !(validateCreateLinkRequest isURL targetUrl (some c)).valid then
    (.invalid (validateCreateLinkRequest isURL targetUrl (some c)).error,
      sInsert)
  else
    match findByCode sCheck c with
    | some _ => (.conflict, sInsert)
    | none =>
      match insertLink sInsert c targetUrl now with
      | .ok (l, s₁) => (.created l, s₁)
      | .error _ => (.conflict, sInsert)

/-- The `GET /api/links/:code` handler: a pure lookup, 200 with the row or
404 when absent. -/
def apiGetLink (s : Store) (c : String) : Option Link :=
  findByCode s c

/-- The `GET /api/links` handler: all rows, `orderBy(links.createdAt)`,
i.e. SQL `ORDER BY created_at ASC`, modelled as a stable sort by
`createdAt`. -/
def apiListLinks (s : Store) : List Link :=
  s.rows.mergeSort (fun a b => decide (a.createdAt ≤ b.createdAt))

/-- Outcome of `DELETE /api/links/:code`: 200 with the deleted code, or
404. -/
inductive DeleteOutcome where
  | deleted (code : String)
  | notFound
deriving Repr, DecidableEq

/-- The `DELETE /api/links/:code` handler: existence check, then delete. -/
def apiDeleteLink (s : Store) (c : String) : DeleteOutcome × Store :=
  match findByCode s c with
  | none => (.notFound, s)
  | some _ => (.deleted c, deleteByCode s c)

/-! ## Theorems -/

/-- Every character of the generation alphabet is alphanumeric. -/
lemma alphabet_all_alnum : ∀ c ∈ alphabet.data, isAlnumChar c = true := by
  decide

/-- The generation alphabet has 62 characters. -/
lemma alphabet_length : alphabet.data.length = 62 := by
  decide

/-- C5: `validateCode` fails exactly when the code is blank, its length is
outside [6,8], or it contains a non-alphanumeric character; on failure the
message distinguishes the blank, too-short, too-long and bad-characters
cases. -/
theorem validateCode_spec (code : String) :
    ((validateCode code).valid = false ↔
      (isBlank code = true ∨ code.data.length < 6 ∨ 8 < code.data.length ∨
        ∃ c ∈ code.data, isAlnumChar c = false)) ∧
    ((validateCode code).error = some "Code is required" ↔ isBlank code = true) ∧
    ((validateCode code).error = some "Code must be at least 6 characters long" ↔
      (isBlank code = false ∧ code.data.length < 6)) ∧
    ((validateCode code).error = some "Code must be at most 8 characters long" ↔
      (isBlank code = false ∧ 8 < code.data.length)) ∧
    ((validateCode code).error =
        some "Code can only contain letters (A-Z, a-z) and numbers (0-9)" ↔
      (isBlank code = false ∧ 6 ≤ code.data.length ∧ code.data.length ≤ 8 ∧
        ∃ c ∈ code.data, isAlnumChar c = false)) := by
  unfold validateCode
  split_ifs with h1 h2 h3 h4 <;>
    simp_all [codeRegexTest, List.all_eq_true, Bool.and_eq_true,
      decide_eq_true_eq] <;>
    omega

/-- C7: every auto-generated code is exactly 6 characters long and each of
its characters is drawn from the 62-character alphanumeric alphabet. -/
theorem generateShortCode_spec (rand : Nat → Nat) :
    (generateShortCode rand).length = 6 ∧
    (∀ c ∈ (generateShortCode rand).data, c ∈ alphabet.data ∧
      isAlnumChar c = true) ∧
    alphabet.data.length = 62 := by
  refine ⟨rfl, ?_, alphabet_length⟩
  intro c hc
  have hc' : c ∈ (List.range 6).map
      (fun i => alphabet.data.getD (rand i % 62) 'A') := hc
  rw [List.mem_map] at hc'
  obtain ⟨i, _, rfl⟩ := hc'
  have hlt : rand i % 62 < alphabet.data.length := by
    rw [alphabet_length]; exact Nat.mod_lt _ (by norm_num)
  have hmem : alphabet.data.getD (rand i % 62) 'A' ∈ alphabet.data := by
    rw [List.getD_eq_getElem _ _ hlt]
    exact List.getElem_mem hlt
  exact ⟨hmem, alphabet_all_alnum _ hmem⟩

/-- C9: the list endpoint returns all live rows, sorted by `createdAt`
ascending. -/
theorem apiListLinks_spec (s : Store) :
    (apiListLinks s).Perm s.rows ∧
    List.Pairwise (fun a b : Link => a.createdAt ≤ b.createdAt)
      (apiListLinks s) := by
  constructor
  · exact List.mergeSort_perm s.rows _
  · have h := @List.sorted_mergeSort Link
      (fun a b => decide (a.createdAt ≤ b.createdAt))
      (fun a b c h1 h2 => by
        simp only [decide_eq_true_eq] at *
        omega)
      (fun a b => by
        simp only [Bool.or_eq_true, decide_eq_true_eq]
        omega)
      s.rows
    exact h.imp (fun hab => by simpa using hab)

/-- The row update applied by the atomic click statement to a matching
row. -/
def bumpClick (now : Nat) (l : Link) : Link :=
  { l with totalClicks := l.totalClicks + 1, lastClickedAt := some now }

/-- The row transformation of `incrementClick`, on one row. -/
lemma incrementClick_rows (s : Store) (c : String) (now : Nat) :
    (incrementClick s c now).rows =
      s.rows.map (fun l => if l.code == c then bumpClick now l else l) := by
  rfl

/-- Looking up a code after the atomic click statement: the found row (if
any) is the bumped one. -/
lemma findByCode_incrementClick (s : Store) (c : String) (now : Nat) :
    findByCode (incrementClick s c now) c =
      (findByCode s c).map (bumpClick now) := by
  unfold findByCode
  rw [incrementClick_rows, List.find?_map]
  have hcomp :
      ((fun l : Link => l.code == c) ∘
        fun l => if l.code == c then bumpClick now l else l) =
      fun l : Link => l.code == c := by
    funext l
    by_cases h : l.code = c <;> simp [h, bumpClick]
  rw [hcomp]
  cases hfind : s.rows.find? (fun l => l.code == c) with
  | none => rfl
  | some l =>
    have hl : l.code = c := by simpa using List.find?_some hfind
    simp [hl, bumpClick]

/-- Increments leave the multiset of codes unchanged. -/
lemma codes_incrementClick (s : Store) (c : String) (now : Nat) :
    codes (incrementClick s c now) = codes s := by
  unfold codes
  rw [incrementClick_rows, List.map_map]
  apply List.map_congr_left
  intro l _
  by_cases h : l.code = c <;> simp [h, bumpClick]

/-- Lemma: `incrementClick` on a code with no live row is a no-op. -/
lemma incrementClick_of_absent (s : Store) (c : String) (now : Nat)
    (h : findByCode s c = none) : incrementClick s c now = s := by
  unfold findByCode at h
  rw [List.find?_eq_none] at h
  have hmap : s.rows.map (fun l =>
      if l.code == c then bumpClick now l else l) = s.rows := by
    conv_rhs => rw [← List.map_id s.rows]
    apply List.map_congr_left
    intro l hl
    simp [h l hl]
  exact congrArg (fun r => Store.mk r s.nextId) hmap

/-- The increments of a sequence of resolve-and-redirect operations on the
same code, each executed atomically by the storage engine, serialized in
the order the storage engine commits them (`ts` lists the timestamps the
handlers pass for `lastClickedAt`). -/
def applyClicks (s : Store) (c : String) (ts : List Nat) : Store :=
  ts.foldl (fun st t => incrementClick st c t) s

/-- C2: N concurrent click-increments on the same code — serialized by the
storage engine because each is a single atomic `totalClicks + 1` update
expression — increase that code's counter by exactly N: no lost updates. -/
theorem incrementClick_no_lost_updates (s : Store) (c : String) (l : Link)
    (ts : List Nat) (h : findByCode s c = some l) :
    (findByCode (applyClicks s c ts) c).map Link.totalClicks =
      some (l.totalClicks + ts.length) := by
  induction ts generalizing s l with
  | nil => simp [applyClicks, h]
  | cons t ts ih =>
    have hstep : findByCode (incrementClick s c t) c = some (bumpClick t l) := by
      rw [findByCode_incrementClick, h]; rfl
    have := ih (incrementClick s c t) (bumpClick t l) hstep
    simpa [applyClicks, bumpClick, Nat.add_assoc, Nat.add_comm 1 ts.length]
      using this

/-- A sample row for the closed witnesses below. -/
def demoRow : Link :=
  { id := 1, code := "abc123", targetUrl := "https://example.com",
    totalClicks := 4, lastClickedAt := none, createdAt := 0 }

/-- A second sample row with a different code. -/
def demoRow2 : Link :=
  { id := 2, code := "xyz789", targetUrl := "https://b.example",
    totalClicks := 0, lastClickedAt := none, createdAt := 1 }

/-- A sample two-row store for the closed witnesses below. -/
def demoStore : Store :=
  { rows := [demoRow, demoRow2], nextId := 3 }

/-- Closed witness for C2: two clicks on a stored row take its counter from
4 to 6. -/
theorem incrementClick_no_lost_updates_witness :
    findByCode demoStore "abc123" = some demoRow ∧
    (findByCode (applyClicks demoStore "abc123" [3, 7]) "abc123").map
      Link.totalClicks = some (demoRow.totalClicks + [3, 7].length) :=
  ⟨by decide,
    incrementClick_no_lost_updates demoStore "abc123" demoRow [3, 7]
      (by decide)⟩

/-- C4: one successful resolve-and-redirect yields a redirect to the stored
target, increments that row's `totalClicks` by exactly 1 and sets its
`lastClickedAt`; every other row is untouched and no immutable field
(`id`, `code`, `targetUrl`, `createdAt`) of any row changes, nor does the
serial sequence. -/
theorem redirectGET_frame (s : Store) (c : String) (l : Link) (now : Nat)
    (h : findByCode s c = some l) :
    (redirectGET s c now).1 = RedirectOutcome.redirect l.targetUrl ∧
    (redirectGET s c now).2.rows =
      s.rows.map (fun x => if x.code == c then bumpClick now x else x) ∧
    findByCode (redirectGET s c now).2 c = some (bumpClick now l) ∧
    (redirectGET s c now).2.rows.map
        (fun x => (x.id, x.code, x.targetUrl, x.createdAt)) =
      s.rows.map (fun x => (x.id, x.code, x.targetUrl, x.createdAt)) ∧
    (redirectGET s c now).2.nextId = s.nextId := by
  unfold redirectGET redirectGETRaced
  rw [h]
  refine ⟨rfl, incrementClick_rows s c now, ?_, ?_, rfl⟩
  · rw [show (RedirectOutcome.redirect l.targetUrl,
        incrementClick s c now).2 = incrementClick s c now from rfl,
      findByCode_incrementClick, h]
    rfl
  · rw [show (RedirectOutcome.redirect l.targetUrl,
        incrementClick s c now).2 = incrementClick s c now from rfl,
      incrementClick_rows, List.map_map]
    apply List.map_congr_left
    intro x _
    by_cases hx : x.code = c <;> simp [hx, bumpClick]

/-- Closed witness for C4: a click on a two-row store bumps only the clicked
row. -/
theorem redirectGET_frame_witness :
    findByCode demoStore "abc123" = some demoRow ∧
    ((redirectGET demoStore "abc123" 9).1 =
        RedirectOutcome.redirect demoRow.targetUrl ∧
      (redirectGET demoStore "abc123" 9).2.rows =
        demoStore.rows.map
          (fun x => if x.code == "abc123" then bumpClick 9 x else x) ∧
      findByCode (redirectGET demoStore "abc123" 9).2 "abc123" =
        some (bumpClick 9 demoRow) ∧
      (redirectGET demoStore "abc123" 9).2.rows.map
          (fun x => (x.id, x.code, x.targetUrl, x.createdAt)) =
        demoStore.rows.map
          (fun x => (x.id, x.code, x.targetUrl, x.createdAt)) ∧
      (redirectGET demoStore "abc123" 9).2.nextId = demoStore.nextId) :=
  ⟨by decide, redirectGET_frame demoStore "abc123" demoRow 9 (by decide)⟩

/-- C1 counterexample: with the link live at lookup time but deleted before
the increment statement runs, the handler still returns a 302 redirect to
the deleted row's target — not the not-found outcome the claim requires. -/
theorem redirect_after_delete_counterexample :
    findByCode demoStore "abc123" = some demoRow ∧
    findByCode (deleteByCode demoStore "abc123") "abc123" = none ∧
    (redirectGETRaced demoStore (deleteByCode demoStore "abc123")
        "abc123" 5).1 = RedirectOutcome.redirect "https://example.com" ∧
    (redirectGETRaced demoStore (deleteByCode demoStore "abc123")
        "abc123" 5).1 ≠ RedirectOutcome.notFound := by
  decide

/-- C1 (amended): a code with no live row at lookup time always yields the
not-found outcome with no increment; but when the row disappears between
the successful lookup and the increment, the handler does not surface a
not-found — the update silently matches zero rows and the operation still
redirects to the `targetUrl` read at lookup time (and in neither case is a
server error produced). -/
theorem redirectGETRaced_spec (t₁ t₂ s₁ s₂ : Store) (d c : String)
    (now₂ now : Nat) (l : Link)
    (ht : findByCode t₁ d = none)
    (h₁ : findByCode s₁ c = some l)
    (h₂ : findByCode s₂ c = none) :
    redirectGETRaced t₁ t₂ d now₂ = (RedirectOutcome.notFound, t₂) ∧
    redirectGETRaced s₁ s₂ c now =
      (RedirectOutcome.redirect l.targetUrl, s₂) := by
  constructor
  · unfold redirectGETRaced
    rw [ht]
  · unfold redirectGETRaced
    rw [h₁, incrementClick_of_absent s₂ c now h₂]

/-- Closed witness for the amended C1. -/
theorem redirectGETRaced_spec_witness :
    findByCode demoStore "nosuch" = none ∧
    findByCode demoStore "abc123" = some demoRow ∧
    findByCode (deleteByCode demoStore "abc123") "abc123" = none ∧
    (redirectGETRaced demoStore demoStore "nosuch" 5 =
        (RedirectOutcome.notFound, demoStore) ∧
      redirectGETRaced demoStore (deleteByCode demoStore "abc123")
          "abc123" 5 =
        (RedirectOutcome.redirect demoRow.targetUrl,
          deleteByCode demoStore "abc123")) :=
  ⟨by decide, by decide, by decide,
    redirectGETRaced_spec demoStore demoStore demoStore
      (deleteByCode demoStore "abc123") "nosuch" "abc123" 5 5 demoRow
      (by decide) (by decide) (by decide)⟩

/-- The retry loop, unrolled: starting at attempt `k` with `fuel` attempts
left, the result is the first free candidate among `gen k .. gen (k+fuel-1)`. -/
lemma genAttempts_eq_find? (gen : Nat → String) (ex : String → Bool) :
    ∀ (fuel k : Nat), genAttempts gen ex k fuel =
      ((List.range' k fuel).map gen).find? (fun c => !(ex c)) := by
  intro fuel
  induction fuel with
  | zero => intro k; rfl
  | succ n ih =>
    intro k
    rw [genAttempts, List.range'_succ, List.map_cons]
    by_cases h : ex (gen k)
    · rw [if_pos h, ih (k + 1), List.find?_cons_of_neg]
      simp [h]
    · rw [if_neg h, List.find?_cons_of_pos]
      simp [h]

/-- C6: `generateUniqueShortCode` returns the first of its `maxAttempts`
candidates that the existence predicate rejects; when every candidate
collides it returns `none`, and the create handler surfaces that as the
500 generation-failure outcome, leaving the store untouched. -/
theorem generateUniqueShortCode_spec
    (gen gen₂ : Nat → String) (ex ex₂ : String → Bool) (n n₂ : Nat)
    (isURL : String → Bool) (rand : Nat → Nat → Nat) (s : Store)
    (url : String) (now : Nat)
    (hex : ∀ i < n₂, ex₂ (gen₂ i) = true)
    (hurl : (validateUrl isURL url).valid = true)
    (hcoll : ∀ i < 3, (findByCode s (generateShortCode (rand i))).isSome
      = true) :
    generateUniqueShortCode gen ex n =
      ((List.range n).map gen).find? (fun c => !(ex c)) ∧
    generateUniqueShortCode gen₂ ex₂ n₂ = none ∧
    POST isURL rand s url none now = (CreateOutcome.genFailed, s) := by
  refine ⟨?_, ?_, ?_⟩
  · unfold generateUniqueShortCode
    rw [genAttempts_eq_find?, List.range_eq_range']
  · unfold generateUniqueShortCode
    rw [genAttempts_eq_find?, List.find?_eq_none]
    intro x hx
    rw [List.mem_map] at hx
    obtain ⟨i, hi, rfl⟩ := hx
    have hlt : i < n₂ := by
      rw [List.mem_range'] at hi
      omega
    simp [hex i hlt]
  · have hgen : generateUniqueShortCode
        (fun i => generateShortCode (rand i))
        (fun cd => (findByCode s cd).isSome) 3 = none := by
      unfold generateUniqueShortCode
      rw [genAttempts_eq_find?, List.find?_eq_none]
      intro x hx
      rw [List.mem_map] at hx
      obtain ⟨i, hi, rfl⟩ := hx
      have hlt : i < 3 := by
        rw [List.mem_range'] at hi
        omega
      simp [hcoll i hlt]
    simp [POST, validateCreateLinkRequest, truthy, hurl, hgen]

/-- A store already holding the code that `generateShortCode` produces from
the all-zero randomness source, for the C6 witness. -/
def demoStoreA : Store :=
  { rows := [{ id := 1, code := "AAAAAA", targetUrl := "https://example.com",
               totalClicks := 0, lastClickedAt := none, createdAt := 0 }],
    nextId := 2 }

/-- Closed witness for C6: with every candidate colliding, generation
returns `none` and the create handler reports the 500 outcome. -/
theorem generateUniqueShortCode_spec_witness :
    (validateUrl (fun _ => true) "https://example.com").valid = true ∧
    (findByCode demoStoreA (generateShortCode (fun _ => 0))).isSome = true ∧
    generateUniqueShortCode (fun i => toString i) (fun c => c == "0") 3 =
      ((List.range 3).map (fun i => toString i)).find?
        (fun c => !(c == "0")) ∧
    generateUniqueShortCode (fun _ => "x") (fun _ => true) 3 = none ∧
    POST (fun _ => true) (fun _ _ => 0) demoStoreA "https://example.com"
      none 7 = (CreateOutcome.genFailed, demoStoreA) := by
  have H := generateUniqueShortCode_spec (fun i => toString i)
    (fun _ => "x") (fun c => c == "0") (fun _ => true) 3 3 (fun _ => true)
    (fun _ _ => 0) demoStoreA "https://example.com" 7
    (by decide) (by decide) (by decide)
  exact ⟨by decide, by decide, H.1, H.2.1, H.2.2⟩

/-- When no live row has the code, the uniqueness pre-condition of the
insert holds. -/
lemma any_code_eq_false (s : Store) (c : String)
    (h : findByCode s c = none) :
    s.rows.any (fun l => l.code == c) = false := by
  unfold findByCode at h
  rw [List.find?_eq_none] at h
  rw [List.any_eq_false]
  exact h

/-- An insert on a code with no live row succeeds and appends the fresh
row. -/
lemma insertLink_ok_of_absent (s : Store) (c url : String) (now : Nat)
    (h : findByCode s c = none) :
    insertLink s c url now = Except.ok
      ({ id := s.nextId, code := c, targetUrl := url, totalClicks := 0,
         lastClickedAt := none, createdAt := now },
       { rows := s.rows ++
           [{ id := s.nextId, code := c, targetUrl := url, totalClicks := 0,
              lastClickedAt := none, createdAt := now }],
         nextId := s.nextId + 1 }) := by
  unfold insertLink
  rw [any_code_eq_false s c h]
  simp

/-- An insert on a code that already has a live row violates the unique
constraint. -/
lemma insertLink_err_of_present (s : Store) (c url : String) (now : Nat)
    (l : Link) (h : findByCode s c = some l) :
    insertLink s c url now = Except.error () := by
  unfold findByCode at h
  unfold insertLink
  have hany : s.rows.any (fun x => x.code == c) = true := by
    rw [List.any_eq_true]
    refine ⟨l, List.mem_of_find?_eq_some h, ?_⟩
    have hpl := List.find?_some h
    exact hpl
  rw [hany]
  simp

/-- A successful insert preserves the uniqueness invariant on codes. -/
lemma insertLink_preserves_nodup (s : Store) (c url : String) (now : Nat)
    (l : Link) (s₁ : Store)
    (heq : insertLink s c url now = Except.ok (l, s₁))
    (hnd : (codes s).Nodup) : (codes s₁).Nodup := by
  unfold insertLink at heq
  by_cases h : s.rows.any (fun x => x.code == c) = true
  · rw [if_pos h] at heq
    exact absurd heq (by simp)
  · rw [if_neg h] at heq
    simp only [Except.ok.injEq, Prod.mk.injEq] at heq
    obtain ⟨-, h₂⟩ := heq
    subst h₂
    unfold codes
    simp only [List.map_append, List.map_cons, List.map_nil]
    rw [List.nodup_append]
    refine ⟨hnd, List.nodup_singleton c, ?_⟩
    intro x hx hx'
    rw [List.mem_singleton] at hx'
    subst hx'
    rw [Bool.not_eq_true, List.any_eq_false] at h
    rw [List.mem_map] at hx
    obtain ⟨y, hy, hyc⟩ := hx
    exact absurd (by simp [hyc]) (h y hy)

/-- After a successful insert the inserted code resolves to the fresh
row. -/
lemma findByCode_after_insert (s : Store) (c url : String) (now : Nat)
    (h : findByCode s c = none) :
    findByCode
      { rows := s.rows ++
          [{ id := s.nextId, code := c, targetUrl := url, totalClicks := 0,
             lastClickedAt := none, createdAt := now }],
        nextId := s.nextId + 1 } c =
      some { id := s.nextId, code := c, targetUrl := url, totalClicks := 0,
             lastClickedAt := none, createdAt := now } := by
  unfold findByCode at h ⊢
  rw [List.find?_append, h]
  simp

/-- Deleting preserves the uniqueness invariant on codes. -/
lemma deleteByCode_preserves_nodup (s : Store) (c : String)
    (hnd : (codes s).Nodup) : (codes (deleteByCode s c)).Nodup := by
  unfold codes deleteByCode
  exact ((List.filter_sublist s.rows).map Link.code).nodup hnd

/-- C3: with the storage-level unique constraint, two create requests
carrying the same custom code cannot both succeed: the first wins and the
second draws the conflict outcome whatever state its duplicate pre-check
happened to read (pre-check before or after the winner's insert), with the
store left unchanged by the loser; and the code-uniqueness invariant is
preserved by create, click-increment and delete alike. -/
theorem create_conflict_spec
    (isURL : String → Bool) (rand : Nat → Nat → Nat) (s sCheck s₄ : Store)
    (url c url₄ : String) (cc₄ : Option String) (now now₂ now₄ t : Nat)
    (hv : (validateCreateLinkRequest isURL url (some c)).valid = true)
    (h0 : findByCode s c = none)
    (hnd : (codes s).Nodup)
    (hnd₄ : (codes s₄).Nodup) :
    isCreated (POSTCustomRaced isURL s s url c now).1 = true ∧
    POSTCustomRaced isURL sCheck (POSTCustomRaced isURL s s url c now).2
        url c now₂ =
      (CreateOutcome.conflict, (POSTCustomRaced isURL s s url c now).2) ∧
    (codes (POSTCustomRaced isURL s s url c now).2).Nodup ∧
    (codes (POST isURL rand s₄ url₄ cc₄ now₄).2).Nodup ∧
    (codes (incrementClick s₄ c t)).Nodup ∧
    (codes (deleteByCode s₄ c)).Nodup ∧
    (codes (apiDeleteLink s₄ c).2).Nodup := by
  have hins := insertLink_ok_of_absent s c url now h0
  have hfirst : POSTCustomRaced isURL s s url c now =
      (CreateOutcome.created
        { id := s.nextId, code := c, targetUrl := url, totalClicks := 0,
          lastClickedAt := none, createdAt := now },
       { rows := s.rows ++
           [{ id := s.nextId, code := c, targetUrl := url, totalClicks := 0,
              lastClickedAt := none, createdAt := now }],
         nextId := s.nextId + 1 }) := by
    unfold POSTCustomRaced
    simp only [hv, Bool.not_true, Bool.false_eq_true, if_false, h0, hins]
  have hfind1 := findByCode_after_insert s c url now h0
  refine ⟨?_, ?_, ?_, ?_, ?_, ?_, ?_⟩
  · rw [hfirst]; rfl
  · rw [hfirst]
    unfold POSTCustomRaced
    simp only [hv, Bool.not_true, Bool.false_eq_true, if_false]
    cases hchk : findByCode sCheck c with
    | some _ => rfl
    | none =>
      simp only [insertLink_err_of_present _ c url now₂ _ hfind1]
  · rw [hfirst]
    exact insertLink_preserves_nodup s c url now _ _ hins hnd
  · unfold POST
    split_ifs with h1 h2
    · exact hnd₄
    · cases hf : findByCode s₄ (cc₄.getD "") with
      | some _ => simp only; exact hnd₄
      | none =>
        simp only
        cases hins₄ : insertLink s₄ (cc₄.getD "") url₄ now₄ with
        | ok p =>
          simp only
          exact insertLink_preserves_nodup s₄ _ url₄ now₄ p.1 p.2
            (by rw [hins₄]) hnd₄
        | error e => simp only; exact hnd₄
    · cases hg : generateUniqueShortCode
          (fun i => generateShortCode (rand i))
          (fun cd => (findByCode s₄ cd).isSome) 3 with
      | none => simp only; exact hnd₄
      | some cg =>
        simp only
        cases hins₄ : insertLink s₄ cg url₄ now₄ with
        | ok p =>
          simp only
          exact insertLink_preserves_nodup s₄ cg url₄ now₄ p.1 p.2
            (by rw [hins₄]) hnd₄
        | error e => simp only; exact hnd₄
  · rw [codes_incrementClick]; exact hnd₄
  · exact deleteByCode_preserves_nodup s₄ c hnd₄
  · unfold apiDeleteLink
    cases hf : findByCode s₄ c with
    | none => exact hnd₄
    | some _ => exact deleteByCode_preserves_nodup s₄ c hnd₄

/-- Closed witness for C3: a create for a fresh custom code wins and an
identical racing create loses with 409 whichever state its pre-check saw. -/
theorem create_conflict_spec_witness :
    (validateCreateLinkRequest (fun _ => true) "https://example.com"
      (some "newcd1")).valid = true ∧
    findByCode demoStore "newcd1" = none ∧
    (codes demoStore).Nodup ∧
    (isCreated (POSTCustomRaced (fun _ => true) demoStore demoStore
        "https://example.com" "newcd1" 5).1 = true ∧
      POSTCustomRaced (fun _ => true) demoStore
          (POSTCustomRaced (fun _ => true) demoStore demoStore
            "https://example.com" "newcd1" 5).2 "https://example.com"
          "newcd1" 6 =
        (CreateOutcome.conflict,
          (POSTCustomRaced (fun _ => true) demoStore demoStore
            "https://example.com" "newcd1" 5).2) ∧
      (codes (POSTCustomRaced (fun _ => true) demoStore demoStore
        "https://example.com" "newcd1" 5).2).Nodup ∧
      (codes (POST (fun _ => true) (fun _ _ => 0) demoStore
        "https://example.com" (some "xyz789") 7).2).Nodup ∧
      (codes (incrementClick demoStore "newcd1" 8)).Nodup ∧
      (codes (deleteByCode demoStore "newcd1")).Nodup ∧
      (codes (apiDeleteLink demoStore "newcd1").2).Nodup) :=
  ⟨by decide, by decide, by decide,
    create_conflict_spec (fun _ => true) (fun _ _ => 0) demoStore demoStore
      demoStore "https://example.com" "newcd1" "https://example.com"
      (some "xyz789") 5 6 7 8 (by decide) (by decide) (by decide)
      (by decide)⟩

/-- C8: a create with a valid URL and a valid, unused custom code succeeds,
and an immediate fetch of that code returns a link carrying the supplied
`targetUrl`, `totalClicks = 0` and `lastClickedAt = null`. -/
theorem create_then_get_spec (isURL : String → Bool)
    (rand : Nat → Nat → Nat) (s : Store) (url cc : String) (now : Nat)
    (hu : (validateUrl isURL url).valid = true)
    (hc : (validateCode cc).valid = true)
    (h0 : findByCode s cc = none) :
    isCreated (POST isURL rand s url (some cc) now).1 = true ∧
    (apiGetLink (POST isURL rand s url (some cc) now).2 cc).map
        (fun l => (l.code, l.targetUrl, l.totalClicks, l.lastClickedAt)) =
      some (cc, url, 0, none) := by
  have htr : truthy (some cc) = true := by
    unfold truthy
    by_cases he : cc = ""
    · subst he
      rw [validateCode] at hc
      simp [isBlank] at hc
    · simp [he]
  have hv : (validateCreateLinkRequest isURL url (some cc)).valid = true := by
    simp [validateCreateLinkRequest, hu, htr, hc]
  have hins := insertLink_ok_of_absent s cc url now h0
  have hpost : POST isURL rand s url (some cc) now =
      (CreateOutcome.created
        { id := s.nextId, code := cc, targetUrl := url, totalClicks := 0,
          lastClickedAt := none, createdAt := now },
       { rows := s.rows ++
           [{ id := s.nextId, code := cc, targetUrl := url, totalClicks := 0,
              lastClickedAt := none, createdAt := now }],
         nextId := s.nextId + 1 }) := by
    unfold POST
    simp only [hv, Bool.not_true, Bool.false_eq_true, if_false, htr,
      if_true, Option.getD_some, h0, hins]
  rw [hpost]
  refine ⟨rfl, ?_⟩
  show (apiGetLink
      { rows := s.rows ++
          [{ id := s.nextId, code := cc, targetUrl := url, totalClicks := 0,
             lastClickedAt := none, createdAt := now }],
        nextId := s.nextId + 1 } cc).map
      (fun l => (l.code, l.targetUrl, l.totalClicks, l.lastClickedAt)) =
    some (cc, url, 0, none)
  unfold apiGetLink
  rw [findByCode_after_insert s cc url now h0]
  rfl

/-- Closed witness for C8. -/
theorem create_then_get_spec_witness :
    (validateUrl (fun _ => true) "https://example.com").valid = true ∧
    (validateCode "newcd1").valid = true ∧
    findByCode demoStore "newcd1" = none ∧
    (isCreated (POST (fun _ => true) (fun _ _ => 0) demoStore
        "https://example.com" (some "newcd1") 5).1 = true ∧
      (apiGetLink (POST (fun _ => true) (fun _ _ => 0) demoStore
          "https://example.com" (some "newcd1") 5).2 "newcd1").map
          (fun l => (l.code, l.targetUrl, l.totalClicks, l.lastClickedAt)) =
        some ("newcd1", "https://example.com", 0, none)) :=
  ⟨by decide, by decide, by decide,
    create_then_get_spec (fun _ => true) (fun _ _ => 0) demoStore
      "https://example.com" "newcd1" 5 (by decide) (by decide) (by decide)⟩

/-- Auto-generated codes always have exactly 6 characters. -/
lemma generateShortCode_length (r : Nat → Nat) :
    (generateShortCode r).length = 6 := rfl

/-- C10: a create request whose custom code is the empty string behaves
exactly like a request with no custom code: the validators treat it as
absent (the URL alone decides validity), the handler takes the
auto-generation path, and any link it creates carries a 6-character
generated code — never the empty string. -/
theorem empty_custom_code_spec (isURL : String → Bool)
    (rand : Nat → Nat → Nat) (s : Store) (url : String) (now : Nat)
    (l : Link)
    (hcreated : (POST isURL rand s url (some "") now).1 =
      CreateOutcome.created l) :
    validateCreateLinkRequest isURL url (some "") =
      validateCreateLinkRequest isURL url none ∧
    (validateCreateLinkRequest isURL url (some "")).valid =
      (validateUrl isURL url).valid ∧
    POST isURL rand s url (some "") now = POST isURL rand s url none now ∧
    l.code.length = 6 ∧ l.code ≠ "" := by
  have heq : validateCreateLinkRequest isURL url (some "") =
      validateCreateLinkRequest isURL url none := by
    unfold validateCreateLinkRequest
    simp [truthy]
  have hval : (validateCreateLinkRequest isURL url (some "")).valid =
      (validateUrl isURL url).valid := by
    unfold validateCreateLinkRequest
    cases hu : (validateUrl isURL url).valid <;> simp [truthy, hu]
  have hposteq : POST isURL rand s url (some "") now =
      POST isURL rand s url none now := by
    unfold POST
    rw [heq]
    simp [truthy]
  have h6 : l.code.length = 6 := by
    unfold POST at hcreated
    by_cases hv : (validateCreateLinkRequest isURL url (some "")).valid
    · simp only [hv, Bool.not_true, Bool.false_eq_true, if_false] at hcreated
      have htr : truthy (some "") = false := by simp [truthy]
      rw [htr] at hcreated
      simp only [Bool.false_eq_true, if_false] at hcreated
      cases hg : generateUniqueShortCode (fun i => generateShortCode (rand i))
          (fun cd => (findByCode s cd).isSome) 3 with
      | none => rw [hg] at hcreated; simp at hcreated
      | some cg =>
        rw [hg] at hcreated
        have hmem : ∃ i, cg = generateShortCode (rand i) := by
          have hchar : generateUniqueShortCode
              (fun i => generateShortCode (rand i))
              (fun cd => (findByCode s cd).isSome) 3 =
            ((List.range 3).map (fun i => generateShortCode (rand i))).find?
              (fun c => !((findByCode s c).isSome)) := by
            unfold generateUniqueShortCode
            rw [genAttempts_eq_find?, List.range_eq_range']
          rw [hchar] at hg
          have hmm := List.mem_of_find?_eq_some hg
          rw [List.mem_map] at hmm
          obtain ⟨i, -, hi⟩ := hmm
          exact ⟨i, hi.symm⟩
        obtain ⟨i, rfl⟩ := hmem
        have hcreated' :
            (match insertLink s (generateShortCode (rand i)) url now with
              | Except.ok (l, s₁) => (CreateOutcome.created l, s₁)
              | Except.error _ => (CreateOutcome.conflict, s)).1 =
            CreateOutcome.created l := hcreated
        cases hins : insertLink s (generateShortCode (rand i)) url now with
        | ok p =>
          obtain ⟨l₀, s₁⟩ := p
          rw [hins] at hcreated'
          simp only [CreateOutcome.created.injEq] at hcreated'
          subst hcreated'
          unfold insertLink at hins
          by_cases hany : s.rows.any
              (fun x => x.code == generateShortCode (rand i)) = true
          · rw [if_pos hany] at hins
            exact absurd hins (by simp)
          · rw [if_neg hany] at hins
            simp only [Except.ok.injEq, Prod.mk.injEq] at hins
            rw [← hins.1]
            exact generateShortCode_length (rand i)
        | error e => rw [hins] at hcreated'; simp at hcreated'
    · rw [Bool.not_eq_true] at hv
      rw [hv] at hcreated
      simp at hcreated
  refine ⟨heq, hval, hposteq, h6, ?_⟩
  intro hne
  rw [hne] at h6
  simp at h6

/-- The empty store, for the C10 witness. -/
def emptyStore : Store := { rows := [], nextId := 1 }

/-- Closed witness for C10: creating with `customCode = ""` on an empty
store auto-generates a 6-character code. -/
theorem empty_custom_code_spec_witness :
    (POST (fun _ => true) (fun _ _ => 0) emptyStore "https://example.com"
        (some "") 0).1 =
      CreateOutcome.created
        { id := 1, code := "AAAAAA", targetUrl := "https://example.com",
          totalClicks := 0, lastClickedAt := none, createdAt := 0 } ∧
    (validateCreateLinkRequest (fun _ => true) "https://example.com"
        (some "") =
      validateCreateLinkRequest (fun _ => true) "https://example.com"
        none ∧
    (validateCreateLinkRequest (fun _ => true) "https://example.com"
        (some "")).valid =
      (validateUrl (fun _ => true) "https://example.com").valid ∧
    POST (fun _ => true) (fun _ _ => 0) emptyStore "https://example.com"
        (some "") 0 =
      POST (fun _ => true) (fun _ _ => 0) emptyStore "https://example.com"
        none 0 ∧
    ({ id := 1, code := "AAAAAA", targetUrl := "https://example.com",
       totalClicks := 0, lastClickedAt := none,
       createdAt := 0 } : Link).code.length = 6 ∧
    ({ id := 1, code := "AAAAAA", targetUrl := "https://example.com",
       totalClicks := 0, lastClickedAt := none,
       createdAt := 0 } : Link).code ≠ "") :=
  ⟨by decide,
    empty_custom_code_spec (fun _ => true) (fun _ _ => 0) emptyStore
      "https://example.com" 0
      { id := 1, code := "AAAAAA", targetUrl := "https://example.com",
        totalClicks := 0, lastClickedAt := none, createdAt := 0 }
      (by decide)⟩

end UrlShortener
